import Mathlib

/-!
Shallow embedding of the in-memory user CRUD service (src/app/main.py).

The store `users_db` is a Python list of dicts; we model it as a
`List UserRec`.  Each endpoint is a pure function over the store; an
endpoint that raises `HTTPException(status_code, detail)` is modelled as
`Except HTTPError _`, and a mutating endpoint returns the new store
alongside its response (a raised exception aborts the handler before any
mutation, so error results carry no store).
-/

/-- A stored record: the dict
`{"id": user_id, "name": ..., "email": ..., "age": ...}` appended by
`create_user`.  Python ints are unbounded, hence `Int`. -/
structure UserRec where
  id : Int
  name : String
  email : String
  age : Int
deriving Repr, DecidableEq

/-- The request body of POST /users (pydantic model `User`). Its optional
`id` field is never read by any endpoint, so it is omitted. -/
structure UserIn where
  name : String
  email : String
  age : Int
deriving Repr, DecidableEq

/-- The pydantic response model `UserResponse`. -/
structure UserResponse where
  id : Int
  name : String
  email : String
  age : Int
deriving Repr, DecidableEq

/-- Conversion `UserResponse(**user_data)`: the response carries exactly
the four fields of the stored dict. -/
def UserRec.toResponse (u : UserRec) : UserResponse :=
  ⟨u.id, u.name, u.email, u.age⟩

/-- Model of `HTTPException(status_code=..., detail=...)`. -/
structure HTTPError where
  status_code : Nat
  detail : String
deriving Repr, DecidableEq

/-- The payload of GET /health. -/
structure HealthInfo where
  status : String
  version : String
  users_count : Nat
deriving Repr, DecidableEq

/-- GET /health (`health_check` in main.py):
`{"status": "ok", "version": "1.0.0", "users_count": len(users_db)}`. -/
def health_check (db : List UserRec) : HealthInfo :=
  ⟨"ok", "1.0.0", db.length⟩

/-- POST /users (`create_user` in main.py): reject age outside [0,150],
then reject a duplicate email, else assign `id = len(users_db) + 1`,
append the record and return it as a `UserResponse`. -/
def create_user (user : UserIn) (db : List UserRec) :
    Except HTTPError (UserResponse × List UserRec) :=
  if user.age < 0 ∨ user.age > 150 then
    .error ⟨400, "Age must be between 0 and 150"⟩
  else if db.any (fun u => u.email == user.email) then
    .error ⟨400, "Email already exists"⟩
  else
    let user_id : Int := db.length + 1
    let user_data : UserRec := ⟨user_id, user.name, user.email, user.age⟩
    .ok (user_data.toResponse, db ++ [user_data])

/-- GET /users (`get_users`): `[UserResponse(**user) for user in users_db]`. -/
def get_users (db : List UserRec) : List UserResponse :=
  db.map UserRec.toResponse

/-- GET /users/{user_id} (`get_user`): first record with matching id, else
404.  (`if not user` fires exactly when `next(..., None)` returned `None`,
since every stored dict is non-empty and hence truthy.) -/
def get_user (user_id : Int) (db : List UserRec) :
    Except HTTPError UserResponse :=
  match db.find? (fun u => u.id == user_id) with
  | none => .error ⟨404, "User not found"⟩
  | some u => .ok u.toResponse

/-- DELETE /users/{user_id} (`delete_user`): 404 when no record matches,
else rebuild the store as `[u for u in users_db if u["id"] != user_id]`
and return the f-string confirmation message. -/
def delete_user (user_id : Int) (db : List UserRec) :
    Except HTTPError (String × List UserRec) :=
  match db.find? (fun u => u.id == user_id) with
  | none => .error ⟨404, "User not found"⟩
  | some _ =>
    .ok ("User " ++ toString user_id ++ " deleted successfully",
         db.filter (fun u => u.id != user_id))

/-- One request to the service (the five routes of main.py). -/
inductive Request where
  | root : Request
  | health : Request
  | create (user : UserIn) : Request
  | listUsers : Request
  | getById (user_id : Int) : Request
  | deleteById (user_id : Int) : Request
deriving Repr, DecidableEq

/-- The store after handling one request: only a successful create or a
successful delete changes `users_db`; every error path raises before the
mutation line, and the read-only endpoints never touch the store. -/
def stateAfter (req : Request) (db : List UserRec) : List UserRec :=
  match req with
  | .create user =>
    match create_user user db with
    | .ok (_, db') => db'
    | .error _ => db
  | .deleteById k =>
    match delete_user k db with
    | .ok (_, db') => db'
    | .error _ => db
  | _ => db

/-- Store states reachable from the empty startup store by successful
create and delete operations. -/
inductive Reachable : List UserRec → Prop where
  | empty : Reachable []
  | create_ok {db db' : List UserRec} {u : UserIn} {resp : UserResponse} :
      Reachable db → create_user u db = .ok (resp, db') → Reachable db'
  | delete_ok {db db' : List UserRec} {k : Int} {msg : String} :
      Reachable db → delete_user k db = .ok (msg, db') → Reachable db'

/-- A sequence of POST /users requests handled one after another against
the store, stopping at the first failure (each request either appends a
record or leaves an error response). -/
def create_all (users : List UserIn) (db : List UserRec) :
    Except HTTPError (List UserRec) :=
  match users with
  | [] => .ok db
  | u :: rest =>
    match create_user u db with
    | .error e => .error e
    | .ok (_, db') => create_all rest db'

/-- The records a batch of creates produces when every create succeeds
against a store that already holds `n` records: the i-th candidate
receives id `n + i + 1` and keeps its fields. -/
def buildFrom (n : Nat) : List UserIn → List UserRec
  | [] => []
  | u :: rest => ⟨(n : Int) + 1, u.name, u.email, u.age⟩ :: buildFrom (n + 1) rest

/-! ### Helper lemmas about the create path -/

lemma any_email_eq_false {db : List UserRec} {u : UserIn}
    (h : ∀ r ∈ db, r.email ≠ u.email) :
    db.any (fun r => r.email == u.email) = false := by
  simp only [List.any_eq_false, beq_iff_eq]
  exact h

lemma create_user_age_err {u : UserIn} (db : List UserRec)
    (h : u.age < 0 ∨ 150 < u.age) :
    create_user u db = .error ⟨400, "Age must be between 0 and 150"⟩ := by
  unfold create_user
  rw [if_pos]
  exact h

lemma create_user_ok (u : UserIn) (db : List UserRec)
    (h1 : 0 ≤ u.age ∧ u.age ≤ 150) (h2 : ∀ r ∈ db, r.email ≠ u.email) :
    create_user u db =
      .ok ((⟨(db.length : Int) + 1, u.name, u.email, u.age⟩ : UserRec).toResponse,
           db ++ [⟨(db.length : Int) + 1, u.name, u.email, u.age⟩]) := by
  unfold create_user
  rw [if_neg (by omega), any_email_eq_false h2]
  simp

lemma create_user_dup (u : UserIn) (db : List UserRec)
    (h1 : 0 ≤ u.age ∧ u.age ≤ 150) (h2 : ∃ r ∈ db, r.email = u.email) :
    create_user u db = .error ⟨400, "Email already exists"⟩ := by
  unfold create_user
  rw [if_neg (by omega), if_pos]
  simp only [List.any_eq_true, beq_iff_eq]
  exact h2

/-! ### Helper lemmas about id lookup -/

lemma find?_id_eq_none {db : List UserRec} {k : Int}
    (h : ∀ r ∈ db, r.id ≠ k) :
    db.find? (fun r => r.id == k) = none := by
  rw [List.find?_eq_none]
  simpa using h

lemma find?_id_isSome {db : List UserRec} {k : Int}
    (h : ∃ r ∈ db, r.id = k) :
    (db.find? (fun r => r.id == k)).isSome := by
  rw [List.find?_isSome]
  simpa using h

lemma delete_user_ok (db : List UserRec) (k : Int)
    (h : ∃ r ∈ db, r.id = k) :
    delete_user k db =
      .ok ("User " ++ toString k ++ " deleted successfully",
           db.filter (fun u => u.id != k)) := by
  unfold delete_user
  rcases Option.isSome_iff_exists.mp (find?_id_isSome h) with ⟨r, hr⟩
  rw [hr]

/-! ### Shape of successful mutations -/

lemma create_user_ok_shape {u : UserIn} {db db' : List UserRec}
    {resp : UserResponse}
    (h : create_user u db = .ok (resp, db')) :
    db' = db ++ [⟨(db.length : Int) + 1, u.name, u.email, u.age⟩] := by
  unfold create_user at h
  split at h
  · exact absurd h (by simp)
  · split at h
    · exact absurd h (by simp)
    · simp only [Except.ok.injEq, Prod.mk.injEq] at h
      exact h.2.symm

lemma delete_user_ok_shape {k : Int} {db db' : List UserRec} {msg : String}
    (h : delete_user k db = .ok (msg, db')) :
    db' = db.filter (fun r => r.id != k) := by
  unfold delete_user at h
  split at h
  · exact absurd h (by simp)
  · simp only [Except.ok.injEq, Prod.mk.injEq] at h
    exact h.2.symm

/-! ### Lemmas about batches of creates -/

lemma buildFrom_length (n : Nat) (users : List UserIn) :
    (buildFrom n users).length = users.length := by
  induction users generalizing n with
  | nil => rfl
  | cons u rest ih => simp [buildFrom, ih]

lemma buildFrom_map_id (n : Nat) (users : List UserIn) :
    (buildFrom n users).map UserRec.id
      = (List.range users.length).map (fun i => ((n + i : Nat) : Int) + 1) := by
  induction users generalizing n with
  | nil => simp [buildFrom]
  | cons u rest ih =>
    simp only [buildFrom, List.map_cons, List.length_cons,
      List.range_succ_eq_map, List.map_map, ih]
    simp only [List.cons.injEq]
    refine ⟨by simp, ?_⟩
    refine List.map_congr_left fun i hi => ?_
    simp only [Function.comp_apply]
    push_cast
    ring

lemma buildFrom_fields (n : Nat) (users : List UserIn) :
    (buildFrom n users).map (fun r => (r.name, r.email, r.age))
      = users.map (fun u => (u.name, u.email, u.age)) := by
  induction users generalizing n with
  | nil => rfl
  | cons u rest ih => simp [buildFrom, ih]

lemma create_all_ok (users : List UserIn) (db : List UserRec)
    (hages : ∀ u ∈ users, 0 ≤ u.age ∧ u.age ≤ 150)
    (hpair : List.Pairwise (fun a b : UserIn => a.email ≠ b.email) users)
    (hdisj : ∀ u ∈ users, ∀ r ∈ db, r.email ≠ u.email) :
    create_all users db = .ok (db ++ buildFrom db.length users) := by
  induction users generalizing db with
  | nil => simp [create_all, buildFrom]
  | cons u rest ih =>
    have hok := create_user_ok u db (hages u (by simp))
      (fun r hr => hdisj u (by simp) r hr)
    rw [create_all, hok]
    have hrest := ih
      (db ++ [⟨(db.length : Int) + 1, u.name, u.email, u.age⟩])
      (fun v hv => hages v (by simp [hv]))
      (List.pairwise_cons.mp hpair).2
      (by
        intro v hv r hr
        rcases List.mem_append.mp hr with hr | hr
        · exact hdisj v (by simp [hv]) r hr
        · rw [List.mem_singleton.mp hr]
          exact (List.pairwise_cons.mp hpair).1 v hv)
    show create_all rest (db ++ [⟨(db.length : Int) + 1, u.name, u.email, u.age⟩])
      = .ok (db ++ buildFrom db.length (u :: rest))
    rw [hrest]
    simp [buildFrom, List.append_assoc]

/-! ### C1 (amended): ids of reachable stores are positive, but pairwise
distinctness fails after a delete realigns the record count. -/

/-- Claim C1 (amended): in every store state reachable from the empty
store by successful create and delete operations, every stored record's
id is a positive integer.  (Pairwise distinctness of ids does NOT hold in
general — see the counterexample `reachable_ids_can_collide` — because a
new id is `len(users_db) + 1`, which can equal a live id after a
deletion.) -/
theorem reachable_ids_positive {db : List UserRec} (h : Reachable db) :
    ∀ r ∈ db, 0 < r.id := by
  induction h with
  | empty => simp
  | create_ok _ heq ih =>
    have hdb := create_user_ok_shape heq
    subst hdb
    intro r hr
    rcases List.mem_append.mp hr with hr | hr
    · exact ih r hr
    · rw [List.mem_singleton.mp hr]
      exact Int.lt_add_one_iff.mpr (Int.natCast_nonneg _)
  | delete_ok _ heq ih =>
    have hdb := delete_user_ok_shape heq
    subst hdb
    intro r hr
    exact ih r (List.mem_filter.mp hr).1

theorem reachable_ids_positive_witness :
    0 < (⟨1, "A", "a@x.com", 30⟩ : UserRec).id :=
  reachable_ids_positive
    (Reachable.create_ok Reachable.empty
      (rfl : create_user ⟨"A", "a@x.com", 30⟩ [] =
        .ok (⟨1, "A", "a@x.com", 30⟩, [⟨1, "A", "a@x.com", 30⟩])))
    ⟨1, "A", "a@x.com", 30⟩ (by simp)

/-- Claim C1 is false as stated: the store reached by
create A, create B, delete id 1, create C holds two records that both
carry id 2, because the third create is assigned id = count + 1 = 2 while
the record created second (id 2) is still live. -/
theorem reachable_ids_can_collide :
    Reachable [⟨2, "B", "b@x.com", 25⟩, ⟨2, "C", "c@x.com", 40⟩] ∧
    ¬ List.Pairwise (fun a b : UserRec => a.id ≠ b.id)
        [⟨2, "B", "b@x.com", 25⟩, ⟨2, "C", "c@x.com", 40⟩] := by
  constructor
  · have s1 : Reachable [⟨1, "A", "a@x.com", 30⟩] :=
      Reachable.create_ok Reachable.empty
        (rfl : create_user ⟨"A", "a@x.com", 30⟩ [] =
          .ok (⟨1, "A", "a@x.com", 30⟩, [⟨1, "A", "a@x.com", 30⟩]))
    have s2 : Reachable [⟨1, "A", "a@x.com", 30⟩, ⟨2, "B", "b@x.com", 25⟩] :=
      Reachable.create_ok s1
        (rfl : create_user ⟨"B", "b@x.com", 25⟩ [⟨1, "A", "a@x.com", 30⟩] =
          .ok (⟨2, "B", "b@x.com", 25⟩,
               [⟨1, "A", "a@x.com", 30⟩, ⟨2, "B", "b@x.com", 25⟩]))
    have s3 : Reachable [⟨2, "B", "b@x.com", 25⟩] :=
      Reachable.delete_ok s2
        (rfl : delete_user 1 [⟨1, "A", "a@x.com", 30⟩, ⟨2, "B", "b@x.com", 25⟩] =
          .ok ("User 1 deleted successfully", [⟨2, "B", "b@x.com", 25⟩]))
    exact Reachable.create_ok s3
      (rfl : create_user ⟨"C", "c@x.com", 40⟩ [⟨2, "B", "b@x.com", 25⟩] =
        .ok (⟨2, "C", "c@x.com", 40⟩,
             [⟨2, "B", "b@x.com", 25⟩, ⟨2, "C", "c@x.com", 40⟩]))
  · intro hp
    have := (List.pairwise_cons.mp hp).1 ⟨2, "C", "c@x.com", 40⟩ (by simp)
    simp at this

/-! ### C2: age boundaries -/

/-- Claim C2: for every store and candidate, a create with age -1 or 151
fails with status 400 and detail exactly "Age must be between 0 and 150"
regardless of email, while a create with age 0 or 150 whose email matches
no stored record succeeds by appending the new record. -/
theorem create_age_boundaries (db : List UserRec) (u : UserIn) :
    ((u.age = -1 ∨ u.age = 151) →
      create_user u db = .error ⟨400, "Age must be between 0 and 150"⟩) ∧
    ((u.age = 0 ∨ u.age = 150) → (∀ r ∈ db, r.email ≠ u.email) →
      ∃ rec : UserRec, create_user u db = .ok (rec.toResponse, db ++ [rec])) := by
  constructor
  · intro h
    exact create_user_age_err db (by omega)
  · intro h1 h2
    exact ⟨_, create_user_ok u db (by omega) h2⟩

theorem create_age_boundaries_witness :
    create_user ⟨"A", "a@x.com", -1⟩ [] =
      .error ⟨400, "Age must be between 0 and 150"⟩ ∧
    ∃ rec : UserRec, create_user ⟨"A", "a@x.com", 0⟩ [] =
      .ok (rec.toResponse, [] ++ [rec]) :=
  ⟨(create_age_boundaries [] ⟨"A", "a@x.com", -1⟩).1 (Or.inl rfl),
   (create_age_boundaries [] ⟨"A", "a@x.com", 0⟩).2 (Or.inl rfl) (by simp)⟩

/-! ### C3: the age rule fires before the email rule -/

/-- Claim C3: when a candidate has age outside [0,150] AND an email equal
to some stored record's email, create fails with the age-range message —
the age check precedes the email-uniqueness check. -/
theorem age_checked_before_email (db : List UserRec) (u : UserIn)
    (hage : u.age < 0 ∨ 150 < u.age)
    (_hdup : ∃ r ∈ db, r.email = u.email) :
    create_user u db = .error ⟨400, "Age must be between 0 and 150"⟩ :=
  create_user_age_err db hage

theorem age_checked_before_email_witness :
    create_user ⟨"B", "a@x.com", 151⟩ [⟨1, "A", "a@x.com", 30⟩] =
      .error ⟨400, "Age must be between 0 and 150"⟩ :=
  age_checked_before_email [⟨1, "A", "a@x.com", 30⟩] ⟨"B", "a@x.com", 151⟩
    (Or.inr (by norm_num)) ⟨⟨1, "A", "a@x.com", 30⟩, by simp⟩

/-! ### C4: duplicate email is rejected and the store is untouched -/

/-- Claim C4: when some stored record has the candidate's email and the
candidate's age is in [0,150], create fails with 400 "Email already
exists" for every name and age, the store is unchanged by the failed
create, and a subsequent list returns the same records as before. -/
theorem create_duplicate_email_rejected (db : List UserRec) (u : UserIn)
    (hage : 0 ≤ u.age ∧ u.age ≤ 150)
    (hdup : ∃ r ∈ db, r.email = u.email) :
    create_user u db = .error ⟨400, "Email already exists"⟩ ∧
    stateAfter (.create u) db = db ∧
    get_users (stateAfter (.create u) db) = get_users db := by
  have herr := create_user_dup u db hage hdup
  refine ⟨herr, ?_, ?_⟩ <;> simp [stateAfter, herr]

theorem create_duplicate_email_rejected_witness :
    create_user ⟨"B", "a@x.com", 20⟩ [⟨1, "A", "a@x.com", 30⟩] =
      .error ⟨400, "Email already exists"⟩ ∧
    stateAfter (.create ⟨"B", "a@x.com", 20⟩) [⟨1, "A", "a@x.com", 30⟩] =
      [⟨1, "A", "a@x.com", 30⟩] ∧
    get_users (stateAfter (.create ⟨"B", "a@x.com", 20⟩) [⟨1, "A", "a@x.com", 30⟩]) =
      get_users [⟨1, "A", "a@x.com", 30⟩] :=
  create_duplicate_email_rejected [⟨1, "A", "a@x.com", 30⟩] ⟨"B", "a@x.com", 20⟩
    (by norm_num) ⟨⟨1, "A", "a@x.com", 30⟩, by simp⟩

/-! ### C5: a batch of creates with distinct emails -/

/-- Claim C5: starting from the empty store, creating N users whose
emails are pairwise distinct and whose ages lie in [0,150] succeeds at
every step; the resulting store lists exactly N records in creation order
with ids 1..N, every record keeping its candidate's name, email and age,
and the detailed health check reports users_count = N. -/
theorem create_batch_distinct_emails (users : List UserIn)
    (hages : ∀ u ∈ users, 0 ≤ u.age ∧ u.age ≤ 150)
    (hpair : List.Pairwise (fun a b : UserIn => a.email ≠ b.email) users) :
    create_all users [] = .ok (buildFrom 0 users) ∧
    (buildFrom 0 users).length = users.length ∧
    (buildFrom 0 users).map UserRec.id
      = (List.range users.length).map (fun i : Nat => (i : Int) + 1) ∧
    (buildFrom 0 users).map (fun r => (r.name, r.email, r.age))
      = users.map (fun u => (u.name, u.email, u.age)) ∧
    (health_check (buildFrom 0 users)).users_count = users.length := by
  refine ⟨?_, buildFrom_length 0 users, ?_, buildFrom_fields 0 users, ?_⟩
  · simpa using create_all_ok users [] hages hpair (by simp)
  · simpa using buildFrom_map_id 0 users
  · simp [health_check, buildFrom_length]

theorem create_batch_distinct_emails_witness :
    create_all [⟨"A", "a@x.com", 30⟩, ⟨"B", "b@x.com", 25⟩] [] =
      .ok (buildFrom 0 [⟨"A", "a@x.com", 30⟩, ⟨"B", "b@x.com", 25⟩]) ∧
    (buildFrom 0 [⟨"A", "a@x.com", 30⟩, ⟨"B", "b@x.com", 25⟩]).length = 2 ∧
    (buildFrom 0 [⟨"A", "a@x.com", 30⟩, ⟨"B", "b@x.com", 25⟩]).map UserRec.id
      = (List.range 2).map (fun i : Nat => (i : Int) + 1) ∧
    (buildFrom 0 [⟨"A", "a@x.com", 30⟩, ⟨"B", "b@x.com", 25⟩]).map
        (fun r => (r.name, r.email, r.age))
      = ([⟨"A", "a@x.com", 30⟩, ⟨"B", "b@x.com", 25⟩] : List UserIn).map
          (fun u => (u.name, u.email, u.age)) ∧
    (health_check (buildFrom 0 [⟨"A", "a@x.com", 30⟩, ⟨"B", "b@x.com", 25⟩])).users_count
      = 2 := by
  have h := create_batch_distinct_emails [⟨"A", "a@x.com", 30⟩, ⟨"B", "b@x.com", 25⟩]
    (by decide) (by simp [List.pairwise_cons])
  simpa using h

/-! ### C6: successful delete filters out the id -/

/-- Claim C6: when some stored record has id k, delete(k) succeeds with
the message "User k deleted successfully" and removes every record whose
id equals k (filter-out semantics), keeping the remaining records in
their relative order (the new store is a sublist of the old); afterwards
get(k) returns 404 and users_count drops by the number of records whose
id was k. -/
theorem delete_existing_filters_out (db : List UserRec) (k : Int)
    (h : ∃ r ∈ db, r.id = k) :
    delete_user k db =
      .ok ("User " ++ toString k ++ " deleted successfully",
           db.filter (fun u => u.id != k)) ∧
    (∀ r ∈ db.filter (fun u => u.id != k), r.id ≠ k) ∧
    List.Sublist (db.filter (fun u => u.id != k)) db ∧
    get_user k (db.filter (fun u => u.id != k)) = .error ⟨404, "User not found"⟩ ∧
    (health_check (db.filter (fun u => u.id != k))).users_count
      = (health_check db).users_count - db.countP (fun u => u.id == k) := by
  have hmem : ∀ r ∈ db.filter (fun u => u.id != k), r.id ≠ k := by
    intro r hr
    simpa using (List.mem_filter.mp hr).2
  refine ⟨delete_user_ok db k h, hmem, List.filter_sublist db, ?_, ?_⟩
  · simp [get_user, find?_id_eq_none hmem]
  · simp only [health_check]
    have h1 : (db.filter (fun u => u.id != k)).length
        = db.countP (fun u => u.id != k) := (List.countP_eq_length_filter _ _).symm
    have h3 : db.countP (fun u => u.id != k) = db.countP (fun u => !(u.id == k)) := by
      simp [bne]
    have h2 : db.length = db.countP (fun u => u.id == k)
        + db.countP (fun u => !(u.id == k)) := by
      simpa using db.length_eq_countP_add_countP (fun u : UserRec => u.id == k)
    rw [h1, h3, h2]
    omega

theorem delete_existing_filters_out_witness :
    delete_user 1 [⟨1, "A", "a@x.com", 30⟩, ⟨2, "B", "b@x.com", 25⟩] =
      .ok ("User 1 deleted successfully", [⟨2, "B", "b@x.com", 25⟩]) ∧
    (∀ r ∈ ([⟨2, "B", "b@x.com", 25⟩] : List UserRec), r.id ≠ 1) ∧
    List.Sublist ([⟨2, "B", "b@x.com", 25⟩] : List UserRec)
      [⟨1, "A", "a@x.com", 30⟩, ⟨2, "B", "b@x.com", 25⟩] ∧
    get_user 1 [⟨2, "B", "b@x.com", 25⟩] = .error ⟨404, "User not found"⟩ ∧
    (health_check [⟨2, "B", "b@x.com", 25⟩]).users_count = 2 - 1 := by
  have h := delete_existing_filters_out
    [⟨1, "A", "a@x.com", 30⟩, ⟨2, "B", "b@x.com", 25⟩] 1
    ⟨⟨1, "A", "a@x.com", 30⟩, by simp⟩
  simpa using h

/-! ### C7: missing id gives 404 on both GET and DELETE -/

/-- Claim C7: when no stored record has id k, get(k) and delete(k) both
fail with status 404 and detail "User not found", and both leave the
store unchanged. -/
theorem missing_id_get_delete_404 (db : List UserRec) (k : Int)
    (h : ∀ r ∈ db, r.id ≠ k) :
    get_user k db = .error ⟨404, "User not found"⟩ ∧
    delete_user k db = .error ⟨404, "User not found"⟩ ∧
    stateAfter (.getById k) db = db ∧
    stateAfter (.deleteById k) db = db := by
  have hn := find?_id_eq_none h
  refine ⟨?_, ?_, rfl, ?_⟩ <;> simp [get_user, delete_user, stateAfter, hn]

theorem missing_id_get_delete_404_witness :
    get_user 999 [⟨1, "A", "a@x.com", 30⟩] = .error ⟨404, "User not found"⟩ ∧
    delete_user 999 [⟨1, "A", "a@x.com", 30⟩] = .error ⟨404, "User not found"⟩ ∧
    stateAfter (.getById 999) [⟨1, "A", "a@x.com", 30⟩] = [⟨1, "A", "a@x.com", 30⟩] ∧
    stateAfter (.deleteById 999) [⟨1, "A", "a@x.com", 30⟩] = [⟨1, "A", "a@x.com", 30⟩] :=
  missing_id_get_delete_404 [⟨1, "A", "a@x.com", 30⟩] 999 (by simp)

/-! ### C8: the email comparison is exact string equality -/

/-- Claim C8: the duplicate-email check is exact case-sensitive string
equality — whenever the candidate's email differs from every stored
record's email (even only in letter case), the `any` scan is false and
create cannot fail with "Email already exists". -/
theorem email_check_case_sensitive (db : List UserRec) (u : UserIn)
    (h : ∀ r ∈ db, r.email ≠ u.email) :
    db.any (fun r => r.email == u.email) = false ∧
    create_user u db ≠ .error ⟨400, "Email already exists"⟩ := by
  refine ⟨any_email_eq_false h, ?_⟩
  unfold create_user
  rw [any_email_eq_false h]
  split
  · simp
  · simp

theorem email_check_case_sensitive_witness :
    ([⟨1, "A", "A@X.com", 30⟩] : List UserRec).any
      (fun r => r.email == ("a@x.com" : String)) = false ∧
    create_user ⟨"B", "a@x.com", 30⟩ [⟨1, "A", "A@X.com", 30⟩] ≠
      .error ⟨400, "Email already exists"⟩ :=
  email_check_case_sensitive [⟨1, "A", "A@X.com", 30⟩] ⟨"B", "a@x.com", 30⟩
    (by simp)

/-! ### C9: the only store mutations are append and filter -/

/-- Claim C9: for every request, the store after handling it is either
unchanged, or (for a successful create) the old store with the new record
appended at the end — every existing record untouched and in place — or
(for a successful delete) the old store filtered on id; no operation
modifies a field of an existing record. -/
theorem store_mutations_only_append_or_filter (req : Request) (db : List UserRec) :
    stateAfter req db = db ∨
    (∃ u : UserIn, ∃ rec : UserRec, req = .create u ∧
      create_user u db = .ok (rec.toResponse, db ++ [rec]) ∧
      stateAfter req db = db ++ [rec]) ∨
    (∃ k : Int, req = .deleteById k ∧
      stateAfter req db = db.filter (fun r => r.id != k)) := by
  cases req with
  | create u =>
    by_cases hage : u.age < 0 ∨ 150 < u.age
    · left
      simp [stateAfter, create_user_age_err db hage]
    · by_cases hdup : ∃ r ∈ db, r.email = u.email
      · left
        simp [stateAfter, create_user_dup u db (by omega) hdup]
      · right; left
        push_neg at hdup
        have hok := create_user_ok u db (by omega) hdup
        exact ⟨u, _, rfl, hok, by simp [stateAfter, hok]⟩
  | deleteById k =>
    by_cases h : ∃ r ∈ db, r.id = k
    · right; right
      exact ⟨k, rfl, by simp [stateAfter, delete_user_ok db k h]⟩
    · left
      push_neg at h
      simp [stateAfter, delete_user, find?_id_eq_none h]
  | root => exact Or.inl rfl
  | health => exact Or.inl rfl
  | listUsers => exact Or.inl rfl
  | getById k => exact Or.inl rfl

/-! ### C10: GET and DELETE agree on existence -/

/-- Claim C10: for every store and id k, delete(k) fails with 404 "User
not found" exactly when get(k) does, and both fail exactly when no stored
record's id equals k — the two endpoints decide existence by the same
predicate. -/
theorem delete_404_iff_get_404 (db : List UserRec) (k : Int) :
    (delete_user k db = .error ⟨404, "User not found"⟩ ↔
      get_user k db = .error ⟨404, "User not found"⟩) ∧
    (get_user k db = .error ⟨404, "User not found"⟩ ↔ ∀ r ∈ db, r.id ≠ k) := by
  unfold delete_user get_user
  rcases hf : db.find? (fun r => r.id == k) with _ | r
  · have hall : ∀ r ∈ db, r.id ≠ k := by
      intro r hr
      simpa using List.find?_eq_none.mp hf r hr
    simp only [hf]
    simpa using hall
  · have hr := List.mem_of_find?_eq_some hf
    have hk : r.id = k := by simpa using List.find?_some hf
    simp only [hf]
    refine ⟨iff_of_false (by simp) (by simp), iff_of_false (by simp) ?_⟩
    intro hall
    exact hall r hr hk
